import Mathlib

/-!
Verification of the Automat task scheduler (`src/automat.py`).

The file gives a shallow embedding of the two core classes, `Task` and
`Agent`, and proves theorems about the scheduling, execution and
error-handling behaviour the specification describes.

Modelling conventions:
* wall-clock instants (`time.time()` values) are integers, threaded
  explicitly through every operation that reads the clock;
* a bound Python callable is modelled by its behaviour on each invocation:
  `action n` is the outcome of the `(n+1)`-st call, with `Except.error e`
  standing for the callable raising an exception whose string form is `e`;
* the `calls` field of `Task` instruments the opaque callable with the
  number of times it has been invoked; it corresponds to no stored Python
  attribute and no other field depends on it;
* `run` is given explicit fuel (the number of poll iterations it may
  attempt) and returns `none` when the loop has not exited within that
  fuel; a `KeyboardInterrupt` delivered during the sleep of iteration `k`
  is modelled by the schedule argument `interruptAt = some k`.
-/

namespace Automat

/-- Task lifecycle status, the `Task.status` string of the source
(`"pending"`, `"running"`, `"completed"`, `"failed"`). -/
inductive Status where
  | pending
  | running
  | completed
  | failed
deriving DecidableEq, Repr

/-- Outcome stored in an execution-result dictionary under its `"status"`
key: `"success"` or `"failed"`. -/
inductive Outcome where
  | success
  | failed
deriving DecidableEq, Repr

/-- The dictionary `Task.execute` returns:
`{"task": ..., "timestamp": ..., "status": ..., "message": ..., "error": ...}`.
The ISO timestamp string is abstracted to the integer clock value. -/
structure ExecResult where
  task : String
  timestamp : Int
  status : Outcome
  message : Option String
  error : Option String
deriving DecidableEq, Repr

/-- The `Task` class: name, bound action, interval in seconds
(`0` = run once), enable flag, and the mutable run state
(`last_run`, `run_count`, `status`).  `calls` is the instrumentation
counter for action invocations described in the file header. -/
structure Task where
  name : String
  action : Nat → Except String Unit
  interval : Nat
  enabled : Bool
  last_run : Option Int
  run_count : Nat
  status : Status
  calls : Nat

/-- `Task.__init__`: fresh run state; at the Python call sites that omit
them, `interval` defaults to `0` and `enabled` to `True`. -/
def Task.create (name : String) (action : Nat → Except String Unit)
    (interval : Nat) (enabled : Bool) : Task :=
  { name := name, action := action, interval := interval, enabled := enabled,
    last_run := none, run_count := 0, status := Status.pending, calls := 0 }

/-- `Task.should_run` evaluated at wall-clock instant `now`:
disabled tasks never run; a never-run task always runs; a zero-interval
task with a recorded run never runs again; otherwise the elapsed time
since `last_run` must reach the interval. -/
def Task.should_run (t : Task) (now : Int) : Bool :=
  if t.enabled = false then false
  else
    match t.last_run with
    | none => true
    | some lr =>
      if t.interval = 0 then false
      else decide ((t.interval : Int) ≤ now - lr)

/-- `Task.execute`: builds the result dictionary, sets `status` to
`running`, invokes the action once, and then either records the success
(`last_run := now`, `run_count += 1`, `status := completed`, success
message carrying the post-increment run count) or catches the failure
(`status := failed`, result `status := failed`, `error` set to the
exception's string; `last_run` and `run_count` untouched).  The Lean
function is total: the `try/except` of the source catches the action's
exception, so `execute` always returns normally. -/
def Task.execute (t : Task) (now : Int) : Task × ExecResult :=
  let result : ExecResult :=
    { task := t.name, timestamp := now, status := Outcome.success,
      message := none, error := none }
  let t1 : Task := { t with status := Status.running, calls := t.calls + 1 }
  match t.action t.calls with
  | Except.ok _ =>
    let t2 : Task :=
      { t1 with last_run := some now, run_count := t1.run_count + 1,
                status := Status.completed }
    (t2, { result with
             message := some ("Task completed successfully (run #"
               ++ toString t2.run_count ++ ")") })
  | Except.error e =>
    ({ t1 with status := Status.failed },
     { result with status := Outcome.failed, error := some e })

/-- The `Agent` class: display name, the ordered task registry, and the
`running` flag of the continuous loop.  Configuration and logging are
inert data the core never reads and are omitted. -/
structure Agent where
  name : String
  tasks : List Task
  running : Bool

/-- `Agent.add_task`: appends a fresh record; the Python method returns
`self` for chaining, so the updated agent is returned. -/
def Agent.add_task (ag : Agent) (name : String)
    (action : Nat → Except String Unit) (interval : Nat) (enabled : Bool) :
    Agent :=
  { ag with tasks := ag.tasks ++ [Task.create name action interval enabled] }

/-- Loop body of `Agent.remove_task`: scan the registry left to right,
pop the first record whose name matches, report whether one was found. -/
def removeFirst (name : String) : List Task → Bool × List Task
  | [] => (false, [])
  | t :: ts =>
    if t.name = name then (true, ts)
    else
      let r := removeFirst name ts
      (r.1, t :: r.2)

/-- `Agent.remove_task`. -/
def Agent.remove_task (ag : Agent) (name : String) : Agent × Bool :=
  let r := removeFirst name ag.tasks
  ({ ag with tasks := r.2 }, r.1)

/-- One status snapshot of `Agent.get_task_status`. -/
structure StatusRow where
  name : String
  status : Status
  enabled : Bool
  interval : Nat
  run_count : Nat
  last_run : Option Int
deriving DecidableEq, Repr

/-- The source formats
`datetime.fromtimestamp(task.last_run).isoformat() if task.last_run else None`;
the ISO formatting is abstracted to the timestamp itself, and Python
truthiness makes a stored timestamp of exactly `0` report as absent. -/
def formatLastRun (lr : Option Int) : Option Int :=
  match lr with
  | none => none
  | some v => if v = 0 then none else some v

/-- `Agent.get_task_status`: a pure read; the agent is returned unchanged
together with one projection row per record, in registry order. -/
def Agent.get_task_status (ag : Agent) : Agent × List StatusRow :=
  (ag,
   ag.tasks.map (fun t =>
     { name := t.name, status := t.status, enabled := t.enabled,
       interval := t.interval, run_count := t.run_count,
       last_run := formatLastRun t.last_run }))

/-- Loop body of `Agent.run_once`: sweep the registry in order; a record
executes exactly when `task.enabled and task.last_run is None`; results
of executed records are collected in order, skipped records contribute
nothing. -/
def runOnceTasks : List Task → Int → List Task × List ExecResult
  | [], _ => ([], [])
  | t :: ts, now =>
    if t.enabled && t.last_run.isNone then
      let e := t.execute now
      let r := runOnceTasks ts now
      (e.1 :: r.1, e.2 :: r.2)
    else
      let r := runOnceTasks ts now
      (t :: r.1, r.2)

/-- `Agent.run_once`. -/
def Agent.run_once (ag : Agent) (now : Int) : Agent × List ExecResult :=
  let r := runOnceTasks ag.tasks now
  ({ ag with tasks := r.1 }, r.2)

/-- Inner for-loop of one iteration of `Agent.run`: every record for
which `should_run()` holds is executed, its result discarded. -/
def sweepTasks : List Task → Int → List Task
  | [], _ => []
  | t :: ts, now =>
    (if t.should_run now then (t.execute now).1 else t) :: sweepTasks ts now

/-- The guard `if max_iterations and iteration >= max_iterations` of
`Agent.run`, with Python truthiness: `None` and `0` are both falsy, so a
limit of `0` never triggers the break. -/
def limitReached (maxIterations : Option Nat) (iteration : Nat) : Bool :=
  match maxIterations with
  | none => false
  | some m => if m = 0 then false else decide (m ≤ iteration)

/-- What a finished `Agent.run` leaves behind: the agent, the clock, and
how many registry sweeps and poll sleeps the loop performed. -/
structure RunResult where
  agent : Agent
  now : Int
  sweeps : Nat
  sleeps : Nat

/-- The `while self.running` loop of `Agent.run`, with explicit fuel.
Each iteration checks the flag, checks the limit guard, sweeps the
registry, then sleeps one poll quantum (advancing the clock) and
increments the iteration counter.  `interruptAt = some k` delivers a
`KeyboardInterrupt` during the sleep of iteration `k`; the source
catches it, so the loop exits normally there.  `none` is returned when
the fuel ran out before the loop exited. -/
def runLoop (maxIterations interruptAt : Option Nat) :
    Nat → Agent → Int → Nat → Nat → Nat → Option RunResult
  | 0, _, _, _, _, _ => none
  | fuel + 1, st, now, iteration, sweeps, sleeps =>
    if st.running = false then
      some { agent := st, now := now, sweeps := sweeps, sleeps := sleeps }
    else if limitReached maxIterations iteration then
      some { agent := st, now := now, sweeps := sweeps, sleeps := sleeps }
    else
      let st' : Agent := { st with tasks := sweepTasks st.tasks now }
      if interruptAt = some iteration then
        some { agent := st', now := now + 1,
               sweeps := sweeps + 1, sleeps := sleeps + 1 }
      else
        runLoop maxIterations interruptAt fuel st' (now + 1) (iteration + 1)
          (sweeps + 1) (sleeps + 1)

/-- `Agent.run`: sets `running := true`, runs the loop, and — whatever
the exit path, the `finally` of the source — sets `running := false` on
the returned agent. -/
def Agent.run (ag : Agent) (fuel : Nat)
    (maxIterations interruptAt : Option Nat) (now : Int) : Option RunResult :=
  Option.map
    (fun r => { r with agent := { r.agent with running := false } })
    (runLoop maxIterations interruptAt fuel { ag with running := true } now 0 0 0)

/-- `Agent.stop`. -/
def Agent.stop (ag : Agent) : Agent := { ag with running := false }

/-- The post-state registry of a `run_once` sweep: each record is
replaced by its executed version exactly when the sweep's gate
(`enabled` and `last_run is None`) held for it. -/
theorem runOnceTasks_fst (tasks : List Task) (now : Int) :
    (runOnceTasks tasks now).1
      = tasks.map (fun t =>
          if t.enabled && t.last_run.isNone then (t.execute now).1 else t) := by
  induction tasks with
  | nil => rfl
  | cons t ts ih =>
    by_cases h : (t.enabled && t.last_run.isNone) = true
    · simp [runOnceTasks, h, ih]
      rw [if_pos (by simpa using h)]
    · simp [runOnceTasks, h, ih]
      rw [if_neg (by simpa using h)]

/-- The results of a `run_once` sweep: one result per gated record, in
registry order; skipped records contribute nothing. -/
theorem runOnceTasks_snd (tasks : List Task) (now : Int) :
    (runOnceTasks tasks now).2
      = (tasks.filter (fun t => t.enabled && t.last_run.isNone)).map
          (fun t => (t.execute now).2) := by
  induction tasks with
  | nil => rfl
  | cons t ts ih =>
    by_cases h : (t.enabled && t.last_run.isNone) = true
    · simp [runOnceTasks, List.filter_cons, h, ih]
    · simp [runOnceTasks, List.filter_cons, h, ih]

/-- `removeFirst` on a registry with no matching name removes nothing. -/
theorem removeFirst_of_not_mem (name : String) :
    ∀ ts : List Task, (∀ t ∈ ts, t.name ≠ name) →
      removeFirst name ts = (false, ts) := by
  intro ts
  induction ts with
  | nil => intro _; rfl
  | cons t ts ih =>
    intro h
    have ht : t.name ≠ name := h t (List.mem_cons_self t ts)
    simp [removeFirst, ht, ih (fun u hu => h u (List.mem_cons_of_mem t hu))]

/-- `removeFirst` removes exactly the first matching record, keeping the
records before and after it in order. -/
theorem removeFirst_first_match (name : String) :
    ∀ (l1 : List Task) (t : Task) (l2 : List Task), t.name = name →
      (∀ u ∈ l1, u.name ≠ name) →
      removeFirst name (l1 ++ t :: l2) = (true, l1 ++ l2) := by
  intro l1
  induction l1 with
  | nil => intro t l2 ht _; simp [removeFirst, ht]
  | cons u l1 ih =>
    intro t l2 ht h
    have hu : u.name ≠ name := h u (List.mem_cons_self u l1)
    simp [removeFirst, hu,
      ih t l2 ht (fun v hv => h v (List.mem_cons_of_mem u hv))]

/-- With `maxIterations = 0` the limit guard never fires, nothing in a
sweep clears the `running` flag, and no interrupt is scheduled, so the
loop never exits, whatever fuel it is given. -/
theorem runLoop_limit_zero_diverges (fuel : Nat) :
    ∀ (st : Agent) (now : Int) (iteration sweeps sleeps : Nat),
      st.running = true →
      runLoop (some 0) none fuel st now iteration sweeps sleeps = none := by
  induction fuel with
  | zero => intro st now it sw sl _; rfl
  | succ n ih =>
    intro st now it sw sl h
    simp only [runLoop, h, limitReached]
    simp only [if_pos rfl, Bool.false_eq_true, if_false, reduceCtorEq,
      if_neg (fun hc : (none : Option Nat) = some it => Option.noConfusion hc)]
    exact ih _ _ _ _ _ rfl

/-- C1 counterexample: a fresh record whose action always fails, executed
twice, has `run_count = 0`, not the `2` the claim asserts — the source
increments `run_count` inside the `try` block, after the action, so a
failing execution never reaches the increment. -/
theorem runCount_two_failures_counterexample :
    ((((Task.create "boom" (fun _ => Except.error "boom") 0 true).execute
        0).1.execute 1).1).run_count = 0 ∧
    ((((Task.create "boom" (fun _ => Except.error "boom") 0 true).execute
        0).1.execute 1).1).run_count ≠ 2 := by
  decide

/-- C1 (amended): `execute` increments `run_count` by exactly one when the
action succeeds and leaves it unchanged when the action fails, so
`run_count` equals the number of successful executions since creation. -/
theorem execute_runCount_counts_successes (t : Task) (now : Int) :
    ((t.execute now).1).run_count
      = t.run_count
        + (match t.action t.calls with
           | Except.ok _ => 1
           | Except.error _ => 0) := by
  unfold Task.execute
  cases t.action t.calls <;> simp

/-- C2: when the action signals failure, `execute` returns normally with
result outcome `failed`, `error` holding the failure's description,
`message` absent, the record's `status` set to `failed` and `last_run`
untouched; consequently a zero-interval record that was ready before the
failing call is still ready after it. -/
theorem execute_failure_isolation (t : Task) (now : Int) (e : String)
    (hfail : t.action t.calls = Except.error e) :
    ((t.execute now).2).status = Outcome.failed ∧
    ((t.execute now).2).error = some e ∧
    ((t.execute now).2).message = none ∧
    ((t.execute now).1).status = Status.failed ∧
    ((t.execute now).1).last_run = t.last_run ∧
    (t.enabled = true → t.interval = 0 → t.last_run = none →
      ((t.execute now).1).should_run now = true) := by
  unfold Task.execute
  rw [hfail]
  refine ⟨rfl, rfl, rfl, rfl, rfl, fun he hi hl => ?_⟩
  simp [Task.should_run, he, hl]

/-- C2 witness: the failing record of the spec's scenario, executed at
instant 5, shows every clause of `execute_failure_isolation` concretely. -/
theorem execute_failure_isolation_witness :
    ((Task.execute (Task.create "boom" (fun _ => Except.error "boom") 0 true)
        5).2).status = Outcome.failed ∧
    ((Task.execute (Task.create "boom" (fun _ => Except.error "boom") 0 true)
        5).2).error = some "boom" ∧
    ((Task.execute (Task.create "boom" (fun _ => Except.error "boom") 0 true)
        5).2).message = none ∧
    ((Task.execute (Task.create "boom" (fun _ => Except.error "boom") 0 true)
        5).1).status = Status.failed ∧
    ((Task.execute (Task.create "boom" (fun _ => Except.error "boom") 0 true)
        5).1).last_run = none ∧
    ((Task.execute (Task.create "boom" (fun _ => Except.error "boom") 0 true)
        5).1).should_run 5 = true := by
  have h := execute_failure_isolation
    (Task.create "boom" (fun _ => Except.error "boom") 0 true) 5 "boom" rfl
  exact ⟨h.1, h.2.1, h.2.2.1, h.2.2.2.1, h.2.2.2.2.1, h.2.2.2.2.2 rfl rfl rfl⟩

/-- C4: `should_run` holds exactly when the record is enabled and either
has never recorded a run, or has a nonzero interval and the elapsed
wall-clock time since the recorded run reaches that interval; in
particular it is false for disabled records and for zero-interval records
with a recorded (successful) run. -/
theorem should_run_characterisation (t : Task) (now : Int) :
    t.should_run now = true ↔
      t.enabled = true ∧
        (t.last_run = none ∨
          ∃ lr, t.last_run = some lr ∧ t.interval ≠ 0 ∧
            (t.interval : Int) ≤ now - lr) := by
  unfold Task.should_run
  cases he : t.enabled with
  | false => simp [he]
  | true =>
    cases hl : t.last_run with
    | none => simp [hl]
    | some lr =>
      by_cases hi : t.interval = 0
      · simp [hl, hi]
      · simp [hl, hi]

/-- C7: `get_task_status` returns the agent unchanged together with one
projection row per record, in registry order, carrying name, status,
enabled flag, interval, run count and the formatted-or-absent last-run
time; every record's `run_count`, `last_run` and `status` are identical
before and after the call. -/
theorem get_task_status_readonly (ag : Agent) :
    (ag.get_task_status).1 = ag ∧
    (ag.get_task_status).2
      = ag.tasks.map (fun t =>
          { name := t.name, status := t.status, enabled := t.enabled,
            interval := t.interval, run_count := t.run_count,
            last_run := formatLastRun t.last_run }) ∧
    ((ag.get_task_status).2).length = ag.tasks.length ∧
    (((ag.get_task_status).1).tasks).map Task.run_count
      = ag.tasks.map Task.run_count ∧
    (((ag.get_task_status).1).tasks).map Task.last_run
      = ag.tasks.map Task.last_run ∧
    (((ag.get_task_status).1).tasks).map Task.status
      = ag.tasks.map Task.status := by
  refine ⟨rfl, rfl, ?_, rfl, rfl, rfl⟩
  simp [Agent.get_task_status]

/-- C9: `execute` never consults the `enabled` flag — executing a record
with the flag overwritten (in particular, a disabled record) invokes the
action and performs exactly the same status, run-count and last-run
mutations, with the same result; and each `execute` invokes the bound
action exactly once. -/
theorem execute_ignores_enabled (t : Task) (b : Bool) (now : Int) :
    (Task.execute { t with enabled := b } now).1
        = { (Task.execute t now).1 with enabled := b } ∧
    (Task.execute { t with enabled := b } now).2 = (Task.execute t now).2 ∧
    ((Task.execute t now).1).calls = t.calls + 1 := by
  unfold Task.execute
  cases h : t.action t.calls <;> simp

/-- C3: `run_once` executes a record exactly when it is enabled and its
`last_run` is absent, sweeping the registry once in registration order;
it returns one result per executed record, in that order, and none for
skipped records.  When every record is enabled and never run, the sweep
returns exactly one result per record, the post-state registry is the
registry of executed records in order, and each executed record has
`last_run` set exactly when its action succeeded. -/
theorem run_once_spec (ag : Agent) (now : Int) :
    ((ag.run_once now).1).tasks
      = ag.tasks.map (fun t =>
          if t.enabled && t.last_run.isNone then (t.execute now).1 else t) ∧
    (ag.run_once now).2
      = (ag.tasks.filter (fun t => t.enabled && t.last_run.isNone)).map
          (fun t => (t.execute now).2) ∧
    ((∀ t ∈ ag.tasks, t.enabled = true ∧ t.last_run = none) →
      ((ag.run_once now).2).length = ag.tasks.length ∧
      ((ag.run_once now).1).tasks
        = ag.tasks.map (fun t => (t.execute now).1) ∧
      ∀ t ∈ ag.tasks,
        (((t.execute now).1).last_run = some now
          ↔ ∃ u, t.action t.calls = Except.ok u)) := by
  refine ⟨runOnceTasks_fst ag.tasks now, runOnceTasks_snd ag.tasks now,
    fun hall => ⟨?_, ?_, ?_⟩⟩
  · have hgate : ∀ t ∈ ag.tasks, (t.enabled && t.last_run.isNone) = true := by
      intro t ht
      rw [(hall t ht).1, (hall t ht).2]
      rfl
    show (runOnceTasks ag.tasks now).2.length = ag.tasks.length
    rw [runOnceTasks_snd, List.filter_eq_self.mpr hgate, List.length_map]
  · show (runOnceTasks ag.tasks now).1
      = ag.tasks.map (fun t => (t.execute now).1)
    rw [runOnceTasks_fst]
    refine List.map_congr_left (fun t ht => ?_)
    rw [(hall t ht).1, (hall t ht).2]
    rfl
  · intro t ht
    obtain ⟨he, hl⟩ := hall t ht
    unfold Task.execute
    cases h : t.action t.calls with
    | ok u => simp [h]
    | error e => simp [h, hl]

/-- C3 witness: an agent with one succeeding and one failing fresh task
returns exactly two results from `run_once`. -/
theorem run_once_spec_witness :
    ((Agent.run_once
        ⟨"A", [Task.create "a" (fun _ => Except.ok ()) 0 true,
               Task.create "b" (fun _ => Except.error "x") 0 true], false⟩
        7).2).length = 2 := by
  have h := run_once_spec
    ⟨"A", [Task.create "a" (fun _ => Except.ok ()) 0 true,
           Task.create "b" (fun _ => Except.error "x") 0 true], false⟩ 7
  have h3 := (h.2.2 (by
    intro t ht
    simp only [List.mem_cons, List.not_mem_nil, or_false] at ht
    rcases ht with rfl | rfl <;> exact ⟨rfl, rfl⟩)).1
  simpa using h3

/-- C6: removing by a name not present in the registry returns `false`
and leaves the registry unchanged; when at least one record matches,
`remove_task` removes exactly the first match, returns `true`, and keeps
all remaining records in their relative order. -/
theorem remove_task_spec (ag : Agent) (name : String) :
    ((∀ t ∈ ag.tasks, t.name ≠ name) →
      (ag.remove_task name).2 = false ∧
      ((ag.remove_task name).1).tasks = ag.tasks) ∧
    (∀ (l1 : List Task) (t : Task) (l2 : List Task),
      ag.tasks = l1 ++ t :: l2 → t.name = name →
      (∀ u ∈ l1, u.name ≠ name) →
      (ag.remove_task name).2 = true ∧
      ((ag.remove_task name).1).tasks = l1 ++ l2) := by
  constructor
  · intro h
    have hr := removeFirst_of_not_mem name ag.tasks h
    simp [Agent.remove_task, hr]
  · intro l1 t l2 hsplit ht h
    have hr := removeFirst_first_match name l1 t l2 ht h
    simp [Agent.remove_task, hsplit, hr]

/-- C6 witness: removing `"b"` from a two-task registry removes exactly
the second record and reports `true`. -/
theorem remove_task_spec_witness :
    ((Agent.remove_task
        ⟨"A", [Task.create "a" (fun _ => Except.ok ()) 0 true,
               Task.create "b" (fun _ => Except.ok ()) 0 true], false⟩
        "b").2 = true) ∧
    (((Agent.remove_task
        ⟨"A", [Task.create "a" (fun _ => Except.ok ()) 0 true,
               Task.create "b" (fun _ => Except.ok ()) 0 true], false⟩
        "b").1).tasks = [Task.create "a" (fun _ => Except.ok ()) 0 true]) := by
  have h := remove_task_spec
    ⟨"A", [Task.create "a" (fun _ => Except.ok ()) 0 true,
           Task.create "b" (fun _ => Except.ok ()) 0 true], false⟩ "b"
  have h2 := h.2 [Task.create "a" (fun _ => Except.ok ()) 0 true]
    (Task.create "b" (fun _ => Except.ok ()) 0 true) [] rfl rfl (by
      intro u hu
      simp only [List.mem_singleton] at hu
      subst hu
      decide)
  simpa using h2

/-- C5: with `maxIterations = 1` the loop performs at most one full
sweep and at most one poll sleep before returning, whatever interrupt
schedule is in effect; and on every exit path of `run` — normal
completion, iteration limit, or interrupt — the returned agent's
`running` flag is false (the `finally` clause of the source). -/
theorem run_maxIterations_one_bounded (fuel : Nat) (h2 : 2 ≤ fuel)
    (interruptAt : Option Nat) (ag : Agent) (now : Int) :
    (∃ r, Agent.run ag fuel (some 1) interruptAt now = some r ∧
        r.sweeps ≤ 1 ∧ r.sleeps ≤ 1 ∧ (r.agent).running = false) ∧
    (∀ (fuel2 : Nat) (mI iA : Option Nat) (ag2 : Agent) (now2 : Int)
        (r : RunResult),
      Agent.run ag2 fuel2 mI iA now2 = some r → (r.agent).running = false) := by
  constructor
  · obtain ⟨n, rfl⟩ : ∃ n, fuel = n + 2 := ⟨fuel - 2, by omega⟩
    refine ⟨⟨⟨ag.name, sweepTasks ag.tasks now, false⟩, now + 1, 1, 1⟩,
      ?_, le_refl 1, le_refl 1, rfl⟩
    by_cases hI : interruptAt = some 0
    · subst hI
      rfl
    · simp [Agent.run, runLoop, limitReached, hI]
  · intro fuel2 mI iA ag2 now2 r hr
    unfold Agent.run at hr
    obtain ⟨r0, hr0, rfl⟩ := Option.map_eq_some'.mp hr
    rfl

/-- C5 witness: `run` with fuel 2 and `maxIterations = 1` on an agent
with one zero-interval task terminates within one sweep and one sleep,
with the `running` flag clear. -/
theorem run_maxIterations_one_bounded_witness :
    ∃ r, Agent.run
        ⟨"A", [Task.create "hello" (fun _ => Except.ok ()) 0 true], false⟩
        2 (some 1) none 0 = some r ∧
      r.sweeps ≤ 1 ∧ r.sleeps ≤ 1 ∧ (r.agent).running = false :=
  (run_maxIterations_one_bounded 2 (by decide) none
    ⟨"A", [Task.create "hello" (fun _ => Except.ok ()) 0 true], false⟩ 0).1

/-- C8: the limit guard treats `maxIterations = 0` as "no limit" (Python
truthiness of `0`), so `run` with a limit of `0` never exits through the
iteration-limit check: with no interrupt scheduled and nothing clearing
the `running` flag, the loop exhausts any amount of fuel instead of
performing zero sweeps and returning. -/
theorem run_limit_zero_never_breaks (fuel iteration : Nat) (ag : Agent)
    (now : Int) :
    limitReached (some 0) iteration = false ∧
    Agent.run ag fuel (some 0) none now = none := by
  refine ⟨rfl, ?_⟩
  unfold Agent.run
  rw [runLoop_limit_zero_diverges fuel _ now 0 0 0 rfl]
  rfl

/-- C10: whenever `execute` returns, the record's status is `completed`
or `failed` — never `pending` or `running` — so `pending` is never
observable again once a record has been executed. -/
theorem execute_status_terminal (t : Task) (now : Int) :
    (((t.execute now).1).status = Status.completed ∨
      ((t.execute now).1).status = Status.failed) ∧
    ((t.execute now).1).status ≠ Status.pending ∧
    ((t.execute now).1).status ≠ Status.running := by
  unfold Task.execute
  cases t.action t.calls <;> simp

end Automat
